import Mathlib

/-!
Verification development for the AccountantIQ suggestion-and-review system.

The client code (apps/ui, file part_002) is embedded directly from the
TypeScript source. The core engine (matching, review queue, rule store,
export) is not present in the provided sources, so those operations are
modelled from the specification, as marked on each definition.
-/

namespace ACIQ

/-- Transaction direction, from the `direction: "debit" | "credit"` field of
the `BankTxn` interface in part_002. -/
inductive Direction where
  | debit
  | credit
deriving DecidableEq, Repr

/-- The `BankTxn` interface of part_002 (lines 9-17). The `amount` is a
signed decimal with two-decimal precision, embedded as an integer number of
pence. -/
structure BankTxn where
  id : String
  date : String
  amount : Int
  direction : Direction
  description_raw : String
  description_clean : String
  account_id : String
deriving DecidableEq, Repr

/-- The `Suggestion` interface of part_002 (lines 19-25): nullable suggested
codes, a confidence in [0,1] (embedded as a rational), and an ordered list of
explanation strings. -/
structure Suggestion where
  txn_id : String
  nominal_suggested : Option String
  tax_code_suggested : Option String
  confidence : Rat
  explanations : List String
deriving DecidableEq, Repr

/-- Review-item status, from the `status: "pending" | "approved" | "overridden"`
field of the `ReviewItem` interface in part_002. -/
inductive Status where
  | pending
  | approved
  | overridden
deriving DecidableEq, Repr

/-- The `ReviewItem` interface of part_002 (lines 27-36). -/
structure ReviewItem where
  txn : BankTxn
  suggestion : Suggestion
  status : Status
  nominal_final : Option String
  tax_code_final : Option String
  notes : List String
  created_at : String
  updated_at : String
deriving DecidableEq, Repr

/-- The `ExportResponse` interface of part_002 (lines 42-45): exactly the two
fields `exported_path` and `row_count`. -/
structure ExportResponse where
  exported_path : String
  row_count : Nat
deriving DecidableEq, Repr

/-- Modelled from the spec: a `HistoryRecord` is a prior coded transaction
from the legacy ledger export, mirroring BankTransaction plus the
historically assigned nominal and tax codes; used read-only. -/
structure HistoryRecord where
  id : String
  date : String
  amount : Int
  description_clean : String
  nominal_code : String
  tax_code : String
deriving DecidableEq, Repr

/-- Modelled from the spec: a Rule is `name`, `pattern`, `nominal`,
`tax_code`, `created_at`; rules are ordered by recency of creation,
embedded as a Nat timestamp. -/
structure Rule where
  name : String
  pattern : String
  nominal : String
  tax_code : String
  created_at : Nat
deriving DecidableEq, Repr

/-- Modelled from the spec: an ExportProfile is a named column-mapping
configuration. -/
structure ExportProfile where
  name : String
  columns : List String
deriving DecidableEq, Repr

/-! ## Client-side pure functions, embedded from part_002 -/

/-- The queue update applied by both `approveItem` (part_002 lines 204-206)
and `overrideItem` (lines 244-246): `previous.map((entry) =>
entry.txn.id === updated.txn.id ? updated : entry)`. -/
def applyItemUpdate (updated : ReviewItem) (previous : List ReviewItem) : List ReviewItem :=
  previous.map (fun entry => if entry.txn.id == updated.txn.id then updated else entry)

/-- The `disabled` condition of the Approve button in part_002 (line 482):
`item.status !== "pending"`. -/
def approveDisabled (item : ReviewItem) : Bool :=
  item.status != Status.pending

/-- The Override button in part_002 (line 486) carries no `disabled`
attribute: the action is offered on every item regardless of status. -/
def overrideOffered (_item : ReviewItem) : Bool :=
  true

/-- The `disabled` condition of the export button in part_002 (line 400):
`suggestionRows.length === 0`, where `suggestionRows` is the queue items. -/
def exportDisabled (queueItems : List ReviewItem) : Bool :=
  queueItems.length == 0

/-- The JSON body built by `runSuggestions` in part_002 (lines 166-171), as
an ordered field list; the reset flag defaults to `true` via
`options?.reset ?? true`, and no `auto_create_rules` field is present. -/
def runSuggestionsBodyFields (clientSlug bankCsv historyCsv : String)
    (resetOpt : Option Bool) : List (String × String) :=
  [("client_slug", clientSlug),
   ("bank_csv", bankCsv),
   ("history_csv", historyCsv),
   ("reset", if resetOpt.getD true then "true" else "false")]

/-- The JSON body built by `overrideItem` in part_002 (lines 234-238). -/
def overrideBodyFields (nominal taxCode : String) : List (String × String) :=
  [("nominal_code", nominal),
   ("tax_code", taxCode),
   ("note", "Set via UI override")]

/-- The JSON body built by `createRuleFromItem` in part_002 (lines 285-290);
the rule name is `item.suggestion.txn_id.slice(0, 8)`. -/
def rulePostBodyFields (item : ReviewItem) (pattern nominal taxCode : String) :
    List (String × String) :=
  [("name", (item.suggestion.txn_id.take 8)),
   ("pattern", pattern),
   ("nominal", nominal),
   ("tax_code", taxCode)]

/-- JavaScript string truthiness of a `window.prompt` result: `null` and the
empty string are falsy, used by the `if (!pattern) return` guards of
`createRuleFromItem` in part_002 (lines 261-277). -/
def truthy : Option String → Bool
  | none => false
  | some s => s != ""

/-- The prompt guards of `overrideItem` in part_002 (lines 219-226): only a
`null` (cancelled) prompt aborts; empty strings pass through and are sent to
the server. -/
def overridePrompts (nominalInput taxInput : Option String) : Option (String × String) :=
  match nominalInput with
  | none => none
  | some n =>
    match taxInput with
    | none => none
    | some t => some (n, t)

/-- The client UI state relevant to these claims: the displayed queue items
and the three message slots of part_002 (lines 80-84). -/
structure UiState where
  queueItems : List ReviewItem
  error : Option String
  exportMessage : Option String
  ruleMessage : Option String
deriving DecidableEq, Repr

/-- The synchronous part of `runSuggestions` in part_002 (lines 149-172): if
either CSV text is empty, set the error message and return without issuing a
request; otherwise clear the messages and issue the import request body.
Returns the new state and the request body sent, if any. -/
def runSuggestionsClient (clientSlug bankCsv historyCsv : String)
    (resetOpt : Option Bool) (st : UiState) :
    UiState × Option (List (String × String)) :=
  if bankCsv == "" || historyCsv == "" then
    ({ st with error := some "Please provide both bank and history CSV files." }, none)
  else
    ({ st with error := none, exportMessage := none, ruleMessage := none },
     some (runSuggestionsBodyFields clientSlug bankCsv historyCsv resetOpt))

/-- The result of the `createRuleFromItem` flow in part_002 (lines 255-303):
either a prompt was cancelled or empty (no request), or the rule body was
posted; on a successful response the client invokes `runSuggestions` with
the option shown (lines 295-296: always `reset: true`). -/
inductive RuleFlowResult where
  | cancelled
  | posted (body : List (String × String)) (runSuggestionsResetOpt : Option Bool)
deriving DecidableEq, Repr

/-- The `createRuleFromItem` flow of part_002 (lines 255-303), with the three
prompt results and the server acceptance as inputs. -/
def createRuleFlow (item : ReviewItem) (patternInput nominalInput taxInput : Option String)
    (serverOk : Bool) : RuleFlowResult :=
  if !(truthy patternInput) then .cancelled
  else if !(truthy nominalInput) then .cancelled
  else if !(truthy taxInput) then .cancelled
  else
    .posted (rulePostBodyFields item (patternInput.getD "") (nominalInput.getD "")
      (taxInput.getD ""))
      (if serverOk then some true else none)

/-- The response handling of `handleExport` in part_002 (lines 305-323): any
ok payload becomes the success message `Exported N rows to path`; a failed
response becomes an error message. -/
def handleExportClient (resp : Except String ExportResponse) (st : UiState) : UiState :=
  match resp with
  | .ok payload =>
    let msg := "Exported " ++ toString payload.row_count ++ " rows to " ++ payload.exported_path
    { st with exportMessage := some msg }
  | .error e => { st with error := some ("Export failed (" ++ e ++ ")") }

/-! ## Spec-modelled engine core (not present under src/) -/

/-- Whether `pat` occurs at the head of `hay`, character by character. -/
def leadsList : List Char → List Char → Bool
  | [], _ => true
  | _ :: _, [] => false
  | a :: as, b :: bs => a == b && leadsList as bs

/-- Whether `pat` occurs anywhere inside `hay`. -/
def occursIn (pat : List Char) : List Char → Bool
  | [] => pat.isEmpty
  | c :: rest => leadsList pat (c :: rest) || occursIn pat rest

/-- Modelled from the spec: a Rule pattern is a regular expression matched
against a description; the scenarios in the spec use literal patterns, so
matching is embedded as literal substring occurrence. -/
def patternMatches (pattern descr : String) : Bool :=
  occursIn pattern.toList descr.toList

/-- Modelled from the spec: rule specificity, used for the most-specific-wins
conflict policy; embedded as pattern length (a longer literal pattern is more
specific). -/
def ruleSpecificity (r : Rule) : Nat :=
  r.pattern.length

/-- Modelled from the spec: among the rules matching one transaction, the
most specific match wins, ties broken by most-recently-created. -/
def pickRule : List Rule → Option Rule
  | [] => none
  | r :: rs =>
    match pickRule rs with
    | none => some r
    | some best =>
      if ruleSpecificity best < ruleSpecificity r then some r
      else if ruleSpecificity r = ruleSpecificity best ∧ best.created_at < r.created_at then
        some r
      else some best

/-- The rules whose pattern matches a given description. -/
def matchingRules (rules : List Rule) (descr : String) : List Rule :=
  rules.filter (fun r => patternMatches r.pattern descr)

/-- Modelled from the spec: rule-tier evaluation matches patterns against
`description_clean`, falling back to `description_raw` when no clean match
exists. -/
def ruleCandidates (rules : List Rule) (t : BankTxn) : List Rule :=
  let clean := matchingRules rules t.description_clean
  if clean.isEmpty then matchingRules rules t.description_raw else clean

/-- Modelled from the spec: the rule-match tier confidence is a fixed high
constant of at least 0.9. -/
def ruleConfidence : Rat := mkRat 9 10

/-- The explanation string emitted when a rule drives the suggestion; it
cites the rule by name and pattern. -/
def ruleExplanation (r : Rule) : String :=
  "Matched rule " ++ r.name ++ " on pattern " ++ r.pattern

/-- Deduplicated non-empty whitespace-separated tokens of a description. -/
def tokensOf (s : String) : List String :=
  ((s.splitOn " ").filter (fun w => w != "")).dedup

/-- Modelled from the spec: token-set-overlap similarity between two
descriptions, a rational in [0,1]. -/
def similarity (a b : String) : Rat :=
  let ta := tokensOf a
  let tb := tokensOf b
  let u := (ta ∪ tb).length
  if u == 0 then 0 else ((ta ∩ tb).length : Rat) / (u : Rat)

/-- Modelled from the spec: the minimum similarity floor for the fuzzy
historical tier (metric and threshold left to the implementer by the spec,
fixed here). -/
def similarityFloor : Rat := mkRat 1 2

/-- Modelled from the spec: exact-precedent confidence scales with the number
of corroborating records and is capped below the rule-match tier. -/
def exactConfidence (count : Nat) : Rat :=
  min (17 / 20) (1 / 2 + (count : Rat) / 10)

/-- Best similarity achieved by any history record against a description. -/
def bestSimilarity (descr : String) (hist : List HistoryRecord) : Rat :=
  hist.foldl (fun acc h => max acc (similarity descr h.description_clean)) 0

/-- Modelled from the spec: fuzzy historical tier — take the best-scoring
candidates above the similarity floor; if their coded outcomes agree,
suggest with confidence proportional to similarity, otherwise emit no
suggestion with confidence 0 and a no-confident-match explanation. -/
def fuzzyTier (t : BankTxn) (hist : List HistoryRecord) : Suggestion :=
  let best := bestSimilarity t.description_clean hist
  let top := hist.filter
    (fun h => similarity t.description_clean h.description_clean == best)
  if similarityFloor ≤ best then
    match top with
    | [] =>
      { txn_id := t.id, nominal_suggested := none, tax_code_suggested := none,
        confidence := 0, explanations := ["No confident match was found"] }
    | h :: rest =>
      if rest.all (fun h2 => h2.nominal_code == h.nominal_code && h2.tax_code == h.tax_code) then
        { txn_id := t.id, nominal_suggested := some h.nominal_code,
          tax_code_suggested := some h.tax_code,
          confidence := best * (4 / 5),
          explanations := ["Similar history record " ++ h.id ++ " coded " ++ h.nominal_code] }
      else
        { txn_id := t.id, nominal_suggested := none, tax_code_suggested := none,
          confidence := 0, explanations := ["No confident match was found"] }
  else
    { txn_id := t.id, nominal_suggested := none, tax_code_suggested := none,
      confidence := 0, explanations := ["No confident match was found"] }

/-- Modelled from the spec: exact historical precedent tier (cleaned
description equality, unanimity required), falling through to the fuzzy tier
otherwise. -/
def historyTier (t : BankTxn) (hist : List HistoryRecord) : Suggestion :=
  let exact := hist.filter (fun h => h.description_clean == t.description_clean)
  match exact with
  | [] => fuzzyTier t hist
  | h :: _ =>
    if exact.all (fun h2 => h2.nominal_code == h.nominal_code && h2.tax_code == h.tax_code) then
      { txn_id := t.id, nominal_suggested := some h.nominal_code,
        tax_code_suggested := some h.tax_code,
        confidence := exactConfidence exact.length,
        explanations := ["Exact history precedent " ++ h.id ++ " coded " ++ h.nominal_code] }
    else fuzzyTier t hist

/-- Modelled from the spec: the matching engine — given one transaction, the
rule store and the history set, produce one Suggestion; rule match first at
fixed high confidence with an explanation citing the rule, then historical
precedent tiers. The engine is a pure function of its inputs. -/
def matchTransaction (t : BankTxn) (rules : List Rule) (hist : List HistoryRecord) :
    Suggestion :=
  match pickRule (ruleCandidates rules t) with
  | some r =>
    { txn_id := t.id, nominal_suggested := some r.nominal,
      tax_code_suggested := some r.tax_code,
      confidence := ruleConfidence,
      explanations := [ruleExplanation r] }
  | none => historyTier t hist

/-- Modelled from the spec: the `pending → approved` transition — copies the
suggested codes into the final codes and appends a note; fails if the item
is not currently pending, and fails as not-found on an unknown transaction
id. Returns the operation result together with the (unchanged on failure)
queue. -/
def approve_item (q : List ReviewItem) (txn_id now : String) :
    Except String ReviewItem × List ReviewItem :=
  match q.find? (fun it => it.txn.id == txn_id) with
  | none => (.error "unknown transaction id", q)
  | some item =>
    if item.status = Status.pending then
      let updated : ReviewItem :=
        { item with
          status := Status.approved,
          nominal_final := item.suggestion.nominal_suggested,
          tax_code_final := item.suggestion.tax_code_suggested,
          notes := item.notes ++ ["Approved suggestion"],
          updated_at := now }
      (.ok updated, q.map (fun it => if it.txn.id == txn_id then updated else it))
    else (.error "item is not pending", q)

/-- Modelled from the spec: the override transition — permitted from every
status to allow correction; both codes are required non-empty, missing
required fields are a rejected operation with no mutation; sets the final
codes from the supplied values and appends a note with the rationale. -/
def override_item (q : List ReviewItem) (txn_id nominal taxCode note now : String) :
    Except String ReviewItem × List ReviewItem :=
  if nominal == "" || taxCode == "" then
    (.error "nominal_code and tax_code are required", q)
  else
    match q.find? (fun it => it.txn.id == txn_id) with
    | none => (.error "unknown transaction id", q)
    | some item =>
      let updated : ReviewItem :=
        { item with
          status := Status.overridden,
          nominal_final := some nominal,
          tax_code_final := some taxCode,
          notes := item.notes ++ [note],
          updated_at := now }
      (.ok updated, q.map (fun it => if it.txn.id == txn_id then updated else it))

/-- The decided items of a queue: status approved or overridden. -/
def decidedItems (q : List ReviewItem) : List ReviewItem :=
  q.filter (fun it => it.status == Status.approved || it.status == Status.overridden)

/-- Ordering of export rows: by transaction date, then transaction id. -/
def rowLe (a b : ReviewItem) : Bool :=
  match compare a.txn.date b.txn.date with
  | .lt => true
  | .gt => false
  | .eq =>
    match compare a.txn.id b.txn.id with
    | .gt => false
    | _ => true

/-- Insertion of one row into a sorted row list. -/
def insertRow (x : ReviewItem) : List ReviewItem → List ReviewItem
  | [] => [x]
  | y :: ys => if rowLe x y then x :: y :: ys else y :: insertRow x ys

/-- Deterministic insertion sort of export rows by date then id. -/
def sortRows : List ReviewItem → List ReviewItem
  | [] => []
  | x :: xs => insertRow x (sortRows xs)

/-- The output path of an export, per the README layout
`data/clients/(slug)/outputs/sage_import_*.csv`. -/
def outputPath (slug profileName : String) : String :=
  "data/clients/" ++ slug ++ "/outputs/sage_import_" ++ profileName ++ ".csv"

/-- Modelled from the spec: the export operation — selects all and only the
approved/overridden items, serializes them deterministically ordered by date
then id, and returns the output location and row count; it fails only when
the named profile is unknown, and a queue with zero decided items yields a
zero-row success. -/
def exportQueue (profiles : List ExportProfile) (slug profileName : String)
    (q : List ReviewItem) : Except String ExportResponse :=
  match profiles.find? (fun p => p.name == profileName) with
  | none => .error ("unknown export profile: " ++ profileName)
  | some p =>
    let rows := sortRows (decidedItems q)
    .ok { exported_path := outputPath slug p.name, row_count := rows.length }

/-- Modelled from the spec: a freshly imported transaction seeds a pending
ReviewItem carrying its computed suggestion. -/
def seedItem (now : String) (s : Suggestion) (t : BankTxn) : ReviewItem :=
  { txn := t
    suggestion := s
    status := Status.pending
    nominal_final := none
    tax_code_final := none
    notes := []
    created_at := now
    updated_at := now }

/-- Modelled from the spec: refreshing an existing item on re-import. With
reset, every item returns to pending with prior final codes discarded and
note history preserved; without reset, decided items are untouched and only
still-pending items get the fresh suggestion. -/
def refreshItem (reset : Bool) (now : String) (s : Suggestion) (item : ReviewItem) :
    ReviewItem :=
  if reset then
    { item with
      suggestion := s
      status := Status.pending
      nominal_final := none
      tax_code_final := none
      updated_at := now }
  else if item.status = Status.pending then
    { item with suggestion := s, updated_at := now }
  else item

/-- Modelled from the spec: one transaction is matched and then either seeds
a new item or updates the existing item with the same transaction id in
place (one ReviewItem per transaction id). -/
def upsertTxn (rules : List Rule) (hist : List HistoryRecord) (reset : Bool) (now : String)
    (q : List ReviewItem) (t : BankTxn) : List ReviewItem :=
  let s := matchTransaction t rules hist
  match q.find? (fun it => it.txn.id == t.id) with
  | none => q ++ [seedItem now s t]
  | some _ => q.map (fun it => if it.txn.id == t.id then refreshItem reset now s it else it)

/-- Modelled from the spec: the queue-wide seed/update pass of an import. -/
def seedOrUpdate (rules : List Rule) (hist : List HistoryRecord) (reset : Bool)
    (now : String) (q : List ReviewItem) (txns : List BankTxn) : List ReviewItem :=
  txns.foldl (upsertTxn rules hist reset now) q

/-- Modelled from the spec: the confidence threshold above which a fresh
suggestion counts as confident for automatic rule promotion. -/
def autoRuleThreshold : Rat := mkRat 4 5

/-- Modelled from the spec: the rule synthesized from a confident fresh
suggestion — pattern from the cleaned description, codes from the
suggestion; `none` when the suggestion is not confident or lacks a code. -/
def promotedRule (ts : Nat) (item : ReviewItem) : Option Rule :=
  match item.suggestion.nominal_suggested, item.suggestion.tax_code_suggested with
  | some n, some tc =>
    if autoRuleThreshold ≤ item.suggestion.confidence then
      some
        { name := "auto-" ++ item.txn.id
          pattern := item.txn.description_clean
          nominal := n
          tax_code := tc
          created_at := ts }
    else none
  | _, _ => none

/-- One promotion step: append the rule synthesized from one item unless a
rule with an identical pattern already exists. -/
def autoStep (ts : Nat) (acc : List Rule) (item : ReviewItem) : List Rule :=
  match promotedRule ts item with
  | some r => if acc.any (fun r2 => r2.pattern == r.pattern) then acc else acc ++ [r]
  | none => acc

/-- Modelled from the spec: promote the confident fresh suggestions of the
queue into rules, never duplicating an existing identical pattern. -/
def autoCreateRules (ts : Nat) (items : List ReviewItem) (rules : List Rule) : List Rule :=
  items.foldl (autoStep ts) rules

/-- Modelled from the spec: the operation
`import_review(client_slug, bank_csv_text, history_csv_text, reset,
auto_create_rules)` returning a queue snapshot. The CSV Normalizer is out of
scope for these claims and is passed in as the two normalization functions.
The operation normalizes, matches, seeds/updates the queue, and, when
auto_create_rules is set, promotes confident fresh suggestions into rules
before returning. Returns the rule store and the queue snapshot. -/
def importReview (normalizeBank : String → List BankTxn)
    (normalizeHist : String → List HistoryRecord)
    (_client_slug bank_csv_text history_csv_text : String)
    (reset auto_create_rules : Bool)
    (rules : List Rule) (q : List ReviewItem) (now : String) (ts : Nat) :
    List Rule × List ReviewItem :=
  let txns := normalizeBank bank_csv_text
  let hist := normalizeHist history_csv_text
  let q2 := seedOrUpdate rules hist reset now q txns
  let rules2 := if auto_create_rules then autoCreateRules ts q2 rules else rules
  (rules2, q2)

/-! ## Concrete fixtures for witnesses -/

/-- The bank transaction of the spec scenario (a TESCO debit). -/
def txnT : BankTxn :=
  { id := "t1"
    date := "2024-01-15"
    amount := -4500
    direction := Direction.debit
    description_raw := "TESCO STORES 1234"
    description_clean := "tesco stores"
    account_id := "acc-1" }

/-- A mid-confidence suggestion fixture. -/
def suggT : Suggestion :=
  { txn_id := "t1"
    nominal_suggested := some "5020"
    tax_code_suggested := some "T1"
    confidence := mkRat 7 10
    explanations := ["Exact history precedent h1 coded 5020"] }

/-- A high-confidence suggestion fixture, above the promotion threshold. -/
def suggHighT : Suggestion :=
  { suggT with confidence := mkRat 9 10 }

/-- A pending review item fixture. -/
def itemPendingT : ReviewItem :=
  seedItem "2024-01-16T10:00:00" suggT txnT

/-- An approved review item fixture. -/
def itemApprovedT : ReviewItem :=
  { itemPendingT with status := Status.approved }

/-- A pending item carrying a confident suggestion. -/
def itemConfidentT : ReviewItem :=
  { itemPendingT with suggestion := suggHighT }

/-- A second review item fixture with a distinct transaction id. -/
def itemOtherT : ReviewItem :=
  { itemPendingT with txn := { txnT with id := "t2" } }

/-- The spec-scenario rule on pattern tesco. -/
def ruleT : Rule :=
  { name := "tesco-rule"
    pattern := "tesco"
    nominal := "5020"
    tax_code := "T1"
    created_at := 1 }

/-- The rule promotedRule synthesizes from itemConfidentT at timestamp 5. -/
def rulePromotedT : Rule :=
  { name := "auto-t1"
    pattern := "tesco stores"
    nominal := "5020"
    tax_code := "T1"
    created_at := 5 }

/-- The default export profile fixture. -/
def profileT : ExportProfile :=
  { name := "default", columns := ["date", "nominal", "tax"] }

/-- An initial UI state fixture. -/
def stT : UiState :=
  { queueItems := [itemPendingT], error := none, exportMessage := none, ruleMessage := none }

/-- The Suggestion computed by the engine on the scenario inputs. -/
def suggComputedT : Suggestion :=
  matchTransaction txnT [ruleT] []

/-! ## Helper lemmas -/

theorem length_insertRow (x : ReviewItem) (l : List ReviewItem) :
    (insertRow x l).length = l.length + 1 := by
  induction l with
  | nil => rfl
  | cons y ys ih =>
    unfold insertRow
    split <;> simp [ih]

theorem length_sortRows (l : List ReviewItem) : (sortRows l).length = l.length := by
  induction l with
  | nil => rfl
  | cons x xs ih => simp [sortRows, length_insertRow, ih]

theorem pickRule_cons (a : Rule) (l : List Rule) :
    pickRule (a :: l) =
      match pickRule l with
      | none => some a
      | some best =>
        if ruleSpecificity best < ruleSpecificity a then some a
        else if ruleSpecificity a = ruleSpecificity best ∧ best.created_at < a.created_at then
          some a
        else some best := rfl

theorem pickRule_all_eq (r : Rule) (l : List Rule) (hne : l ≠ [])
    (hall : ∀ x ∈ l, x = r) : pickRule l = some r := by
  induction l with
  | nil => exact absurd rfl hne
  | cons a as ih =>
    have ha : a = r := hall a (List.mem_cons_self a as)
    cases as with
    | nil =>
      subst ha
      rfl
    | cons b bs =>
      have hrest : pickRule (b :: bs) = some r :=
        ih (by simp) (fun x hx => hall x (List.mem_cons_of_mem a hx))
      subst ha
      rw [pickRule_cons, hrest]
      simp

theorem mem_autoStep (ts : Nat) (acc : List Rule) (item : ReviewItem) (r : Rule)
    (hr : r ∈ acc) : r ∈ autoStep ts acc item := by
  unfold autoStep
  cases promotedRule ts item with
  | none => exact hr
  | some r2 =>
    by_cases h : acc.any (fun r3 => r3.pattern == r2.pattern)
    · simpa [h] using hr
    · simp only [h]
      exact List.mem_append_left _ hr

theorem mem_autoCreateRules_of_mem (ts : Nat) (items : List ReviewItem)
    (rules : List Rule) (r : Rule) (hr : r ∈ rules) :
    r ∈ autoCreateRules ts items rules := by
  induction items generalizing rules with
  | nil => exact hr
  | cons a as ih =>
    exact ih (autoStep ts rules a) (mem_autoStep ts rules a r hr)

theorem pattern_mem_autoStep (ts : Nat) (acc : List Rule) (item : ReviewItem) (r : Rule)
    (h : promotedRule ts item = some r) :
    ∃ r2 ∈ autoStep ts acc item, r2.pattern = r.pattern := by
  unfold autoStep
  rw [h]
  by_cases hany : acc.any (fun r3 => r3.pattern == r.pattern)
  · obtain ⟨r2, hmem, hpat⟩ := List.any_eq_true.mp hany
    exact ⟨r2, by simpa [hany] using hmem, by simpa using hpat⟩
  · refine ⟨r, ?_, rfl⟩
    simp [hany]

theorem pattern_mem_autoCreateRules (ts : Nat) (items : List ReviewItem)
    (rules : List Rule) (item : ReviewItem) (r : Rule)
    (hp : promotedRule ts item = some r) (hmem : item ∈ items) :
    ∃ r2 ∈ autoCreateRules ts items rules, r2.pattern = r.pattern := by
  induction items generalizing rules with
  | nil => exact absurd hmem (List.not_mem_nil item)
  | cons a as ih =>
    rcases List.mem_cons.mp hmem with h | h
    · subst h
      obtain ⟨r2, hr2, hpat⟩ := pattern_mem_autoStep ts rules item r hp
      exact ⟨r2, mem_autoCreateRules_of_mem ts as (autoStep ts rules item) r2 hr2, hpat⟩
    · exact ih (autoStep ts rules a) h

/-! ## Claim theorems -/

/-- C6: the matching engine is deterministic — for every fixed triple of
transaction, rule store and history records, two runs of the engine produce
identical Suggestion values, including the same explanation list in the same
order; ties are broken deterministically because the engine is a pure
function of its inputs. -/
theorem matching_engine_deterministic (t : BankTxn) (rules : List Rule)
    (hist : List HistoryRecord) (s1 s2 : Suggestion)
    (h1 : matchTransaction t rules hist = s1)
    (h2 : matchTransaction t rules hist = s2) :
    s1 = s2 ∧ s1.nominal_suggested = s2.nominal_suggested ∧
      s1.tax_code_suggested = s2.tax_code_suggested ∧
      s1.confidence = s2.confidence ∧ s1.explanations = s2.explanations := by
  subst h1
  subst h2
  exact ⟨rfl, rfl, rfl, rfl, rfl⟩

theorem matching_engine_deterministic_witness :
    suggComputedT = suggComputedT ∧
      suggComputedT.nominal_suggested = suggComputedT.nominal_suggested ∧
      suggComputedT.tax_code_suggested = suggComputedT.tax_code_suggested ∧
      suggComputedT.confidence = suggComputedT.confidence ∧
      suggComputedT.explanations = suggComputedT.explanations :=
  matching_engine_deterministic txnT [ruleT] [] suggComputedT suggComputedT rfl rfl

/-- C9: if either the bank CSV text or the history CSV text is empty,
runSuggestions issues no import request, sets the error message
"Please provide both bank and history CSV files." and leaves the displayed
queue items unchanged; the import request is sent exactly when both texts
are non-empty. -/
theorem run_suggestions_guard (slug bank hist : String) (ro : Option Bool) (st : UiState) :
    ((bank = "" ∨ hist = "") →
      (runSuggestionsClient slug bank hist ro st).2 = none ∧
      (runSuggestionsClient slug bank hist ro st).1.error =
        some "Please provide both bank and history CSV files." ∧
      (runSuggestionsClient slug bank hist ro st).1.queueItems = st.queueItems) ∧
    ((runSuggestionsClient slug bank hist ro st).2 ≠ none ↔ (bank ≠ "" ∧ hist ≠ "")) := by
  unfold runSuggestionsClient
  by_cases hb : bank = "" <;> by_cases hh : hist = "" <;> simp [hb, hh]

theorem run_suggestions_guard_witness :
    (runSuggestionsClient "sample_client" "" "history data" none stT).2 = none ∧
    (runSuggestionsClient "sample_client" "" "history data" none stT).1.error =
      some "Please provide both bank and history CSV files." ∧
    (runSuggestionsClient "sample_client" "" "history data" none stT).1.queueItems =
      stT.queueItems :=
  (run_suggestions_guard "sample_client" "" "history data" none stT).1 (Or.inl rfl)

/-- C10: applying an approve or override response to the queue list replaces
exactly the entries whose transaction id equals the returned item id —
pointwise, every position either keeps its entry or becomes the update —
the length and order are unchanged, and if no entry has that id the whole
list is unchanged. -/
theorem apply_item_update_frame (u : ReviewItem) (prev : List ReviewItem) :
    (applyItemUpdate u prev).length = prev.length ∧
    (∀ i : Nat, (applyItemUpdate u prev)[i]? =
      (prev[i]?).map (fun e => if e.txn.id == u.txn.id then u else e)) ∧
    ((∀ e ∈ prev, e.txn.id ≠ u.txn.id) → applyItemUpdate u prev = prev) := by
  refine ⟨by simp [applyItemUpdate], fun i => by simp [applyItemUpdate], fun h => ?_⟩
  unfold applyItemUpdate
  induction prev with
  | nil => rfl
  | cons a l ih =>
    have ha : (a.txn.id == u.txn.id) = false := by
      simpa using h a (List.mem_cons_self a l)
    simp only [List.map_cons, ha, if_false, Bool.false_eq_true]
    rw [ih (fun e he => h e (List.mem_cons_of_mem a he))]

theorem apply_item_update_frame_witness :
    applyItemUpdate itemPendingT [itemOtherT] = [itemOtherT] :=
  (apply_item_update_frame itemPendingT [itemOtherT]).2.2 (by decide)

/-- C2: overriding with an empty nominal code or an empty tax code is
rejected and the queue — hence the status and final codes of every item —
is unchanged; the client prompt guard only aborts on a cancelled (null)
prompt and passes empty strings through to the server. -/
theorem override_requires_fields :
    (∀ (q : List ReviewItem) (id nominal tax note now : String),
      (nominal = "" ∨ tax = "") →
      (override_item q id nominal tax note now).1 =
        .error "nominal_code and tax_code are required" ∧
      (override_item q id nominal tax note now).2 = q) ∧
    (∀ t : String, overridePrompts (some "") (some t) = some ("", t)) ∧
    (∀ n : String, overridePrompts (some n) (some "") = some (n, "")) := by
  refine ⟨fun q id nominal tax note now h => ?_, fun t => rfl, fun n => rfl⟩
  have hb : (nominal == "" || tax == "") = true := by
    rcases h with h | h <;> simp [h]
  unfold override_item
  rw [hb]
  exact ⟨rfl, rfl⟩

theorem override_requires_fields_witness :
    (override_item [itemPendingT] "t1" "" "T1" "note" "now").1 =
      .error "nominal_code and tax_code are required" ∧
    (override_item [itemPendingT] "t1" "" "T1" "note" "now").2 = [itemPendingT] :=
  override_requires_fields.1 [itemPendingT] "t1" "" "T1" "note" "now" (Or.inl rfl)

/-- C7: the override operation is permitted from every status — the
transition requires no status precondition, sets the final codes from the
supplied values and appends a note with the rationale; the client offers the
Override action on every item and sends nominal_code, tax_code and a
note. -/
theorem override_any_status :
    (∀ (q : List ReviewItem) (id nominal tax note now : String) (item : ReviewItem),
      q.find? (fun it => it.txn.id == id) = some item →
      nominal ≠ "" → tax ≠ "" →
      ∃ u, (override_item q id nominal tax note now).1 = .ok u ∧
        u.status = Status.overridden ∧
        u.nominal_final = some nominal ∧
        u.tax_code_final = some tax ∧
        u.notes = item.notes ++ [note]) ∧
    (∀ it : ReviewItem, overrideOffered it = true) ∧
    (∀ nominal tax : String,
      (overrideBodyFields nominal tax).map Prod.fst = ["nominal_code", "tax_code", "note"] ∧
      ("note", "Set via UI override") ∈ overrideBodyFields nominal tax) := by
  refine ⟨fun q id nominal tax note now item hfind hn ht => ?_,
    fun it => rfl, fun nominal tax => ⟨rfl, by simp [overrideBodyFields]⟩⟩
  have hb : (nominal == "" || tax == "") = false := by
    simp [hn, ht]
  unfold override_item
  rw [hb]
  simp only [Bool.false_eq_true, if_false]
  rw [hfind]
  exact ⟨_, rfl, rfl, rfl, rfl, rfl⟩

theorem override_any_status_witness :
    ∃ u, (override_item [itemApprovedT] "t1" "7000" "T0" "corrected" "now2").1 = .ok u ∧
      u.status = Status.overridden ∧
      u.nominal_final = some "7000" ∧
      u.tax_code_final = some "T0" ∧
      u.notes = itemApprovedT.notes ++ ["corrected"] :=
  override_any_status.1 [itemApprovedT] "t1" "7000" "T0" "corrected" "now2" itemApprovedT
    rfl (by decide) (by decide)

/-- C1: the approve operation succeeds only when the item is currently
pending — approving an approved or overridden item is rejected with the
queue unchanged; the client disables the Approve button exactly when the
status is not pending, and a successful approve yields the updated item,
which the client substitutes into the queue list. -/
theorem approve_only_pending :
    (∀ (q : List ReviewItem) (id now : String) (item : ReviewItem),
      q.find? (fun it => it.txn.id == id) = some item →
      (item.status ≠ Status.pending →
        (approve_item q id now).1 = .error "item is not pending" ∧
        (approve_item q id now).2 = q) ∧
      (item.status = Status.pending →
        ∃ u, (approve_item q id now).1 = .ok u ∧
          u.status = Status.approved ∧
          u.nominal_final = item.suggestion.nominal_suggested ∧
          u.tax_code_final = item.suggestion.tax_code_suggested ∧
          (approve_item q id now).2 = applyItemUpdate u q)) ∧
    (∀ it : ReviewItem, approveDisabled it = true ↔ it.status ≠ Status.pending) := by
  constructor
  · intro q id now item hfind
    have hid : item.txn.id = id := by
      simpa using List.find?_some hfind
    constructor
    · intro hst
      unfold approve_item
      simp only [hfind]
      rw [if_neg hst]
      exact ⟨rfl, rfl⟩
    · intro hst
      subst hid
      unfold approve_item
      simp only [hfind]
      rw [if_pos hst]
      exact ⟨_, rfl, rfl, rfl, rfl, rfl⟩
  · intro it
    unfold approveDisabled
    cases h : it.status <;> simp [h]

theorem approve_only_pending_witness :
    ((approve_item [itemApprovedT] "t1" "now3").1 = .error "item is not pending" ∧
      (approve_item [itemApprovedT] "t1" "now3").2 = [itemApprovedT]) ∧
    (∃ u, (approve_item [itemPendingT] "t1" "now3").1 = .ok u ∧
      u.status = Status.approved ∧
      u.nominal_final = itemPendingT.suggestion.nominal_suggested ∧
      u.tax_code_final = itemPendingT.suggestion.tax_code_suggested ∧
      (approve_item [itemPendingT] "t1" "now3").2 = applyItemUpdate u [itemPendingT]) :=
  ⟨(approve_only_pending.1 [itemApprovedT] "t1" "now3" itemApprovedT rfl).1 (by decide),
   (approve_only_pending.1 [itemPendingT] "t1" "now3" itemPendingT rfl).2 rfl⟩

/-- C3: export on a queue containing no approved or overridden item returns
a zero-row success (row_count = 0) rather than failing, and fails exactly
when the named profile is unknown; the client renders any successful export
response, including row_count 0, as a success message, and disables the
export action only when the queue has no items at all. -/
theorem export_zero_rows_ok :
    (∀ (profiles : List ExportProfile) (slug name : String) (q : List ReviewItem),
      profiles.find? (fun p => p.name == name) = none →
      exportQueue profiles slug name q = .error ("unknown export profile: " ++ name)) ∧
    (∀ (profiles : List ExportProfile) (slug name : String) (q : List ReviewItem)
      (p : ExportProfile),
      profiles.find? (fun p2 => p2.name == name) = some p →
      decidedItems q = [] →
      exportQueue profiles slug name q =
        .ok { exported_path := outputPath slug name, row_count := 0 }) ∧
    (∀ (st : UiState) (resp : ExportResponse),
      (handleExportClient (.ok resp) st).exportMessage =
        some ("Exported " ++ toString resp.row_count ++ " rows to " ++ resp.exported_path) ∧
      (handleExportClient (.ok resp) st).error = st.error) ∧
    (∀ qItems : List ReviewItem, exportDisabled qItems = true ↔ qItems = []) := by
  refine ⟨fun profiles slug name q h => ?_, fun profiles slug name q p hfind hdec => ?_,
    fun st resp => ⟨rfl, rfl⟩, fun qItems => ?_⟩
  · unfold exportQueue
    simp only [h]
  · have hname : p.name = name := by
      simpa using List.find?_some hfind
    unfold exportQueue
    simp only [hfind]
    rw [hdec, hname]
    rfl
  · unfold exportDisabled
    simp [List.length_eq_zero]

theorem export_zero_rows_ok_witness :
    (exportQueue [profileT] "sample_client" "missing" [itemPendingT] =
      .error ("unknown export profile: " ++ "missing")) ∧
    (exportQueue [profileT] "sample_client" "default" [itemPendingT] =
      .ok { exported_path := outputPath "sample_client" "default", row_count := 0 }) :=
  ⟨export_zero_rows_ok.1 [profileT] "sample_client" "missing" [itemPendingT] rfl,
   export_zero_rows_ok.2.1 [profileT] "sample_client" "default" [itemPendingT] profileT
     rfl (by decide)⟩

/-- C8: every successful export returns exactly the shape
(exported_path, row_count): the response structure has exactly those two
fields, a successful export reports the number of decided rows written and a
path inside the client workspace, and the client renders the message
"Exported N rows to path" from those two fields. -/
theorem export_response_shape :
    (∀ r : ExportResponse,
      r = { exported_path := r.exported_path, row_count := r.row_count }) ∧
    (∀ (profiles : List ExportProfile) (slug name : String) (q : List ReviewItem)
      (res : ExportResponse),
      exportQueue profiles slug name q = .ok res →
      res.row_count = (decidedItems q).length ∧
      (∃ p ∈ profiles, res.exported_path = outputPath slug p.name)) ∧
    (∀ (st : UiState) (resp : ExportResponse),
      (handleExportClient (.ok resp) st).exportMessage =
        some ("Exported " ++ toString resp.row_count ++ " rows to " ++ resp.exported_path)) := by
  refine ⟨fun r => rfl, fun profiles slug name q res h => ?_, fun st resp => rfl⟩
  unfold exportQueue at h
  cases hfind : profiles.find? (fun p => p.name == name) with
  | none =>
    rw [hfind] at h
    exact Except.noConfusion h
  | some p =>
    rw [hfind] at h
    have hres : res =
        { exported_path := outputPath slug p.name
          row_count := (sortRows (decidedItems q)).length } := by
      cases h
      rfl
    subst hres
    exact ⟨length_sortRows (decidedItems q),
      ⟨p, List.mem_of_find?_eq_some hfind, rfl⟩⟩

theorem export_response_shape_witness :
    ((0 : Nat) = (decidedItems [itemPendingT]).length ∧
      (∃ p ∈ [profileT],
        outputPath "sample_client" "default" = outputPath "sample_client" p.name)) :=
  by
    have h := export_response_shape.2.1 [profileT] "sample_client" "default" [itemPendingT]
      { exported_path := outputPath "sample_client" "default", row_count := 0 } (by rfl)
    exact h

/-- C4: on a successful rule post the client always invokes runSuggestions
with reset true, whose request body then carries reset = true; and re-running
the engine on a transaction matched (uniquely) by the appended rule yields a
suggestion at the rule-match confidence tier whose explanation cites the
rule. -/
theorem rule_append_rerun_reset :
    (∀ (item : ReviewItem) (p n t : String), p ≠ "" → n ≠ "" → t ≠ "" →
      createRuleFlow item (some p) (some n) (some t) true =
        .posted (rulePostBodyFields item p n t) (some true)) ∧
    (∀ slug bank hist : String,
      ("reset", "true") ∈ runSuggestionsBodyFields slug bank hist (some true)) ∧
    (∀ (t : BankTxn) (rules : List Rule) (hist : List HistoryRecord) (r : Rule),
      r ∈ rules →
      patternMatches r.pattern t.description_clean = true →
      (∀ r2 ∈ rules, patternMatches r2.pattern t.description_clean = true → r2 = r) →
      (matchTransaction t rules hist).confidence = ruleConfidence ∧
      (matchTransaction t rules hist).explanations = [ruleExplanation r] ∧
      (matchTransaction t rules hist).nominal_suggested = some r.nominal ∧
      (matchTransaction t rules hist).tax_code_suggested = some r.tax_code) := by
  refine ⟨fun item p n t hp hn ht => ?_, fun slug bank hist => ?_,
    fun t rules hist r hr hm huniq => ?_⟩
  · unfold createRuleFlow truthy
    simp [hp, hn, ht]
  · simp [runSuggestionsBodyFields]
  · have hmemf : r ∈ matchingRules rules t.description_clean :=
      List.mem_filter.mpr ⟨hr, hm⟩
    have hne : matchingRules rules t.description_clean ≠ [] :=
      List.ne_nil_of_mem hmemf
    have hrc : ruleCandidates rules t = matchingRules rules t.description_clean := by
      unfold ruleCandidates
      simp [List.isEmpty_iff, hne]
    have hall : ∀ x ∈ matchingRules rules t.description_clean, x = r := by
      intro x hx
      obtain ⟨hx1, hx2⟩ := List.mem_filter.mp hx
      exact huniq x hx1 hx2
    have hpick : pickRule (ruleCandidates rules t) = some r := by
      rw [hrc]
      exact pickRule_all_eq r _ hne hall
    unfold matchTransaction
    simp [hpick]

theorem rule_append_rerun_reset_witness :
    (createRuleFlow itemPendingT (some "tesco") (some "5020") (some "T1") true =
      .posted (rulePostBodyFields itemPendingT "tesco" "5020" "T1") (some true)) ∧
    ((matchTransaction txnT [ruleT] []).confidence = ruleConfidence ∧
      (matchTransaction txnT [ruleT] []).explanations = [ruleExplanation ruleT] ∧
      (matchTransaction txnT [ruleT] []).nominal_suggested = some ruleT.nominal ∧
      (matchTransaction txnT [ruleT] []).tax_code_suggested = some ruleT.tax_code) :=
  ⟨rule_append_rerun_reset.1 itemPendingT "tesco" "5020" "T1"
      (by decide) (by decide) (by decide),
   rule_append_rerun_reset.2.2 txnT [ruleT] [] ruleT (by decide) (by decide) (by decide)⟩

/-- C5: the modelled import operation carries client slug, the two CSV
texts, a reset flag and an auto_create_rules flag; with auto_create_rules
set, the confident fresh suggestions of the returned queue are promoted into
the returned rule store, while the queue snapshot itself does not depend on
the flag; the client request body carries exactly client_slug, bank_csv,
history_csv and reset — reset defaulting to true — and omits
auto_create_rules. -/
theorem import_review_params_and_promotion :
    (∀ (slug bank hist : String) (ro : Option Bool),
      (runSuggestionsBodyFields slug bank hist ro).map Prod.fst =
        ["client_slug", "bank_csv", "history_csv", "reset"]) ∧
    (∀ (slug bank hist : String) (ro : Option Bool),
      "auto_create_rules" ∉ (runSuggestionsBodyFields slug bank hist ro).map Prod.fst) ∧
    (∀ slug bank hist : String,
      ("reset", "true") ∈ runSuggestionsBodyFields slug bank hist none) ∧
    (∀ (nb : String → List BankTxn) (nh : String → List HistoryRecord)
      (slug bank hist : String) (reset : Bool) (rules : List Rule)
      (q : List ReviewItem) (now : String) (ts : Nat),
      (importReview nb nh slug bank hist reset false rules q now ts).1 = rules ∧
      (importReview nb nh slug bank hist reset false rules q now ts).2 =
        (importReview nb nh slug bank hist reset true rules q now ts).2) ∧
    (∀ (nb : String → List BankTxn) (nh : String → List HistoryRecord)
      (slug bank hist : String) (reset : Bool) (rules : List Rule)
      (q : List ReviewItem) (now : String) (ts : Nat) (item : ReviewItem) (r : Rule),
      item ∈ (importReview nb nh slug bank hist reset true rules q now ts).2 →
      promotedRule ts item = some r →
      ∃ r2 ∈ (importReview nb nh slug bank hist reset true rules q now ts).1,
        r2.pattern = r.pattern) := by
  refine ⟨fun slug bank hist ro => rfl, fun slug bank hist ro => by
      simp [runSuggestionsBodyFields],
    fun slug bank hist => by simp [runSuggestionsBodyFields],
    fun nb nh slug bank hist reset rules q now ts => ⟨rfl, rfl⟩,
    fun nb nh slug bank hist reset rules q now ts item r hmem hp => ?_⟩
  exact pattern_mem_autoCreateRules ts _ rules item r hp hmem

theorem import_review_params_and_promotion_witness :
    ∃ r2 ∈ (importReview (fun _ => []) (fun _ => []) "sample_client" "bank" "hist"
        true true [] [itemConfidentT] "now" 5).1,
      r2.pattern = rulePromotedT.pattern :=
  import_review_params_and_promotion.2.2.2.2 (fun _ => []) (fun _ => [])
    "sample_client" "bank" "hist" true [] [itemConfidentT] "now" 5 itemConfidentT
    rulePromotedT (by decide) (by decide)

end ACIQ
